import Mathlib

/-!
Shallow embedding of the shop inventory/sales system (src/shop.py).

Modelling conventions:

- Python `dict` (insertion-ordered, unique keys) is modelled as an
  association list `List (String × Product)`; `dictGet` is `d.get(k)` /
  `k in d` followed by `d[k]`, and `dictSet` is `d[k] = v` (overwrite in
  place keeps the position of an existing key, a fresh key is appended).
- Python numbers: `quantity` is `int`, modelled as `ℤ`; `price` is
  `float`, modelled as `ℚ`.  The only price operations the program
  performs are construction, multiplication by a sold quantity, and
  serialization; no claim compares two differently computed floats, so
  the exact-arithmetic model is observationally faithful here.
- CSV files are modelled as lists of typed rows.  Python writes each
  field with `str` and reads it back with the matching conversion
  (`int(...)`, `float(...)`, identity on strings); `csv` quoting makes
  the string round-trip exact and `int`/`float` reprs round-trip their
  values exactly, so a written file is fully described by its typed rows.
- Mutation and aliasing: a `Sale` line item in Python holds a reference
  to the `Product` object stored in the inventory dict.  The only field
  ever mutated on a `Product` after construction is `quantity`
  (in `update_quantity`), and no code path ever reads `quantity` through
  a sale line item (`Sale.calculate_total`, `Sale.to_dict` and
  `SalesManager.record_sale` read only `product_id`, `name`, `price`).
  Storing a `Product` value snapshot in the line item is therefore
  observationally equivalent to the alias, and the in-place dict
  mutation is modelled by `dictSet` of the updated value.
- Methods that mutate `self` are modelled as functions from the state to
  the new state (plus the return value where there is one); writing a
  file returns the list of rows written, and loading takes the list of
  rows as an argument (file absent, handled by `except FileNotFoundError`,
  simply never calls the row loop and is not modelled by a claim).
-/

namespace Shop

/-- Product: `Product.__init__` fields of src/shop.py. -/
structure Product where
  product_id : String
  name : String
  price : ℚ
  quantity : ℤ
deriving Repr, DecidableEq

/-- The inventory mapping `self.products`, a Python dict keyed by product id. -/
abbrev Inventory := List (String × Product)

/-- Python dict read `d.get(k)` (also models `k in d` plus `d[k]`): first binding wins;
a reachable dict has unique keys so this is the binding. -/
def dictGet : Inventory → String → Option Product
  | [], _ => none
  | (k, v) :: rest, pid => if k = pid then some v else dictGet rest pid

/-- Python dict write `d[k] = v`: overwrite in place if the key exists, else append. -/
def dictSet : Inventory → String → Product → Inventory
  | [], pid, v => [(pid, v)]
  | (k, v0) :: rest, pid, v =>
      if k = pid then (pid, v) :: rest else (k, v0) :: dictSet rest pid v

/-- `Product.update_quantity` (shop.py lines 11-15): fail if more than the stock is
asked, else decrement.  The Python method mutates `self` and returns a Bool; the
model returns the Bool and the (possibly) updated product. -/
def update_quantity (p : Product) (quantity_sold : ℤ) : Bool × Product :=
  if quantity_sold > p.quantity then (false, p)
  else (true, { p with quantity := p.quantity - quantity_sold })

/-- `Inventory.add_product` (lines 30-32): `self.products[product.product_id] = product`.
The subsequent `save_to_file` does not change the in-memory state. -/
def add_product (inv : Inventory) (p : Product) : Inventory :=
  dictSet inv p.product_id p

/-- `Inventory.view_inventory` (lines 34-35). -/
def view_inventory (inv : Inventory) : List Product :=
  inv.map (fun kp => kp.2)

/-- `Inventory.update_product` (lines 37-40): if the id is a key, delegate to
`update_quantity` on the stored product (mutating it in place on success),
else return False. -/
def update_product (inv : Inventory) (product_id : String) (quantity_sold : ℤ) :
    Bool × Inventory :=
  match dictGet inv product_id with
  | some p =>
      let r := update_quantity p quantity_sold
      (r.1, if r.1 then dictSet inv product_id r.2 else inv)
  | none => (false, inv)

/-- `Inventory.save_to_file` (lines 42-47): one row per product, in dict order;
each row carries exactly the `to_dict` fields, i.e. the whole product. -/
def inventory_save (inv : Inventory) : List Product :=
  inv.map (fun kp => kp.2)

/-- `Inventory.load_from_file` (lines 49-58) run on a fresh (empty) inventory:
`self.products[row.product_id] = Product(row...)` for each row in file order. -/
def inventory_load (rows : List Product) : Inventory :=
  rows.foldl (fun acc p => dictSet acc p.product_id p) []

/-- Sale: `Sale.__init__` (lines 61-63); `products_sold` is the list of
(product, quantity) pairs. -/
structure Sale where
  sale_id : String
  products_sold : List (Product × ℤ)
deriving Repr, DecidableEq

/-- `Sale.add_product` (lines 65-66). -/
def Sale.add_product (s : Sale) (p : Product) (q : ℤ) : Sale :=
  { s with products_sold := s.products_sold ++ [(p, q)] }

/-- `Sale.calculate_total` (lines 68-69). -/
def Sale.calculate_total (s : Sale) : ℚ :=
  (s.products_sold.map (fun pq => pq.1.price * (pq.2 : ℚ))).sum

/-- One flattened row of `Sale.to_dict` / the sales CSV file. -/
structure SalesRow where
  sale_id : String
  product_id : String
  product_name : String
  quantity_sold : ℤ
  total_price : ℚ
deriving Repr, DecidableEq

/-- `Sale.to_dict` (lines 71-73): one row per line item. -/
def Sale.to_dict (s : Sale) : List SalesRow :=
  s.products_sold.map (fun pq =>
    { sale_id := s.sale_id
      product_id := pq.1.product_id
      product_name := pq.1.name
      quantity_sold := pq.2
      total_price := pq.1.price * (pq.2 : ℚ) })

/-- `SalesManager.record_sale` (lines 81-85): re-apply every line item deduction
(ignoring the returned Bool), then append the sale.  The manager state is the
shared inventory plus the sales list. -/
def record_sale (inv : Inventory) (sales : List Sale) (sale : Sale) :
    Inventory × List Sale :=
  (sale.products_sold.foldl
     (fun acc pq => (update_product acc pq.1.product_id pq.2).2) inv,
   sales ++ [sale])

/-- `SalesManager.view_sales_report` (lines 87-88): flatten every sale. -/
def view_sales_report (sales : List Sale) : List SalesRow :=
  sales.foldr (fun s acc => s.to_dict ++ acc) []

/-- `SalesManager.save_to_file` (lines 90-96): writes exactly the flattened rows. -/
def sales_save (sales : List Sale) : List SalesRow :=
  sales.foldr (fun s acc => s.to_dict ++ acc) []

/-- `SalesManager.load_from_file` (lines 98-109) run on a fresh (empty) sales list:
for each row make a new `Sale(row.sale_id)`, attach the current catalog product if
`inventory.products.get(row.product_id)` finds one, and append the sale regardless. -/
def sales_load (inv : Inventory) (rows : List SalesRow) : List Sale :=
  rows.map (fun row =>
    match dictGet inv row.product_id with
    | some p => { sale_id := row.sale_id, products_sold := [(p, row.quantity_sold)] }
    | none => { sale_id := row.sale_id, products_sold := [] })

/-- One iteration of the item loop in `ShopSystem.process_sale` (lines 150-161):
skip an unknown id, attempt the deduction, and only on success append the
(post-deduction) catalog product to the sale. -/
def processItem (inv : Inventory) (sale : Sale) (pid : String) (quantity : ℤ) :
    Inventory × Sale :=
  match dictGet inv pid with
  | some _ =>
      let r := update_product inv pid quantity
      if r.1 then
        match dictGet r.2 pid with
        | some p => (r.2, sale.add_product p quantity)
        | none => (r.2, sale)
      else (r.2, sale)
  | none => (inv, sale)

/-- `ShopSystem.process_sale` (lines 147-163) with the interactive loop replaced by
the already-collected list of (product id, quantity) requests: process each item,
then `record_sale` the assembled sale (even when it is empty). -/
def process_sale (inv : Inventory) (sales : List Sale) (sale_id : String)
    (items : List (String × ℤ)) : Inventory × List Sale :=
  let st := items.foldl (fun st it => processItem st.1 st.2 it.1 it.2)
              (inv, Sale.mk sale_id [])
  record_sale st.1 sales st.2

/-- All stock levels in the catalog are non-negative. -/
def InvNonNeg (inv : Inventory) : Prop :=
  ∀ kp ∈ inv, 0 ≤ kp.2.quantity

/-- The dict keys are pairwise distinct (an invariant of every Python dict). -/
def keysNodup (inv : Inventory) : Prop :=
  (inv.map Prod.fst).Nodup

/-- Every binding keys a product under its own id (an invariant of every
inventory the program builds: both `add_product` and `load_from_file` key the
product by its `product_id` field). -/
def keyConsistent (inv : Inventory) : Prop :=
  ∀ kp ∈ inv, kp.1 = kp.2.product_id

/-- The reconstructed report row that `sales_load` followed by
`view_sales_report` produces from one stored row: none when the product id is
gone from the catalog, otherwise the row recomputed from the current product. -/
def reconRow (inv : Inventory) (row : SalesRow) : Option SalesRow :=
  (dictGet inv row.product_id).map (fun p =>
    { sale_id := row.sale_id
      product_id := p.product_id
      product_name := p.name
      quantity_sold := row.quantity_sold
      total_price := p.price * (row.quantity_sold : ℚ) })

instance (inv : Inventory) : Decidable (InvNonNeg inv) :=
  inferInstanceAs (Decidable (∀ kp ∈ inv, 0 ≤ kp.2.quantity))

instance (inv : Inventory) : Decidable (keysNodup inv) :=
  inferInstanceAs (Decidable (inv.map Prod.fst).Nodup)

instance (inv : Inventory) : Decidable (keyConsistent inv) :=
  inferInstanceAs (Decidable (∀ kp ∈ inv, kp.1 = kp.2.product_id))

/-! ## Concrete fixtures used by the scenario claims and the witnesses -/

/-- The product of the spec scenarios: P1, Widget, price 2.50, quantity 10. -/
def widget10 : Product := { product_id := "P1", name := "Widget", price := 5/2, quantity := 10 }

/-- The same product after one deduction of 4: quantity 6. -/
def widget6 : Product := { product_id := "P1", name := "Widget", price := 5/2, quantity := 6 }

/-- Catalog holding only widget10. -/
def catalog10 : Inventory := [("P1", widget10)]

/-- Catalog holding only widget6. -/
def catalog6 : Inventory := [("P1", widget6)]

/-- A witness product with an integral price. -/
def gadget5 : Product := { product_id := "P2", name := "Gadget", price := 3, quantity := 5 }

/-- A two-product witness catalog with integral prices. -/
def wCatalog : Inventory :=
  [("P2", gadget5), ("P3", { product_id := "P3", name := "Bolt", price := 1, quantity := 7 })]

/-- Two stored ledger rows for the witnesses: one whose product is still in
wCatalog and one whose product is gone. -/
def wRows : List SalesRow :=
  [{ sale_id := "S1", product_id := "P2", product_name := "Gadget",
     quantity_sold := 2, total_price := 6 },
   { sale_id := "S1", product_id := "GONE", product_name := "Ghost",
     quantity_sold := 1, total_price := 1 }]

/-- A two-line-item sale over the witness catalog. -/
def wSale : Sale := { sale_id := "S9", products_sold := [(gadget5, 1), (gadget5, 2)] }

/-! ## Helper lemmas about the dict model -/

theorem dictGet_dictSet_self (inv : Inventory) (pid : String) (v p : Product)
    (h : dictGet inv pid = some p) :
    dictGet (dictSet inv pid v) pid = some v := by
  induction inv with
  | nil => simp [dictGet] at h
  | cons kp rest ih =>
      obtain ⟨k, v0⟩ := kp
      by_cases hk : k = pid
      · simp [dictGet, dictSet, hk]
      · simp [dictGet, dictSet, hk] at h ⊢
        exact ih h

theorem dictGet_dictSet_ne (inv : Inventory) (pid k : String) (v : Product)
    (h : k ≠ pid) :
    dictGet (dictSet inv pid v) k = dictGet inv k := by
  have hne : ¬ pid = k := fun hh => h hh.symm
  induction inv with
  | nil => simp [dictGet, dictSet, hne]
  | cons kp rest ih =>
      obtain ⟨k0, v0⟩ := kp
      by_cases hk : k0 = pid
      · simp [dictGet, dictSet, hk, hne]
      · simp [dictGet, dictSet, hk]
        by_cases hq : k0 = k <;> simp [hq, ih]

theorem update_product_fail_eq (inv : Inventory) (pid : String) (n : ℤ)
    (h : (update_product inv pid n).1 = false) :
    (update_product inv pid n).2 = inv := by
  unfold update_product at h ⊢
  cases hg : dictGet inv pid with
  | none => simp [hg]
  | some p =>
      simp [hg] at h ⊢
      simp [h]

/-- Flattening a ledger distributes over append: the report of a longer ledger
is the report of the prefix followed by the report of the suffix. -/
theorem view_sales_report_append (l1 l2 : List Sale) :
    view_sales_report (l1 ++ l2) = view_sales_report l1 ++ view_sales_report l2 := by
  induction l1 with
  | nil => rfl
  | cons s rest ih =>
      show s.to_dict ++ view_sales_report (rest ++ l2) =
        (s.to_dict ++ view_sales_report rest) ++ view_sales_report l2
      rw [ih, List.append_assoc]

/-- The report flattens one sale at a time. -/
theorem view_sales_report_cons (s : Sale) (l : List Sale) :
    view_sales_report (s :: l) = s.to_dict ++ view_sales_report l := rfl

/-- What reloading a sales file reports: each stored row is re-joined against
the current catalog, and contributes its reconRow, so rows whose product id is
gone contribute nothing. -/
theorem sales_report_load (inv : Inventory) (rows : List SalesRow) :
    view_sales_report (sales_load inv rows) = rows.filterMap (reconRow inv) := by
  induction rows with
  | nil => rfl
  | cons row rest ih =>
      have hcons : view_sales_report (sales_load inv (row :: rest)) =
          (match dictGet inv row.product_id with
            | some p =>
                ({ sale_id := row.sale_id,
                   products_sold := [(p, row.quantity_sold)] } : Sale)
            | none => { sale_id := row.sale_id, products_sold := [] }).to_dict
            ++ view_sales_report (sales_load inv rest) := rfl
      rw [hcons, List.filterMap_cons, ih]
      cases hg : dictGet inv row.product_id with
      | none => simp [hg, Sale.to_dict, reconRow]
      | some p => simp [hg, Sale.to_dict, reconRow]

/-! ## Claim theorems -/

/-- Claim C2: for every catalog, every product id present in it, and every
deduction amount n with n at most the current quantity, update_product reports
success, the quantity after the call is the quantity before minus exactly n,
and the binding of every other product id is unchanged. -/
theorem update_product_success_deducts (inv : Inventory) (pid : String) (n : ℤ)
    (p : Product) (hget : dictGet inv pid = some p) (hle : n ≤ p.quantity) :
    (update_product inv pid n).1 = true ∧
    dictGet (update_product inv pid n).2 pid =
      some { p with quantity := p.quantity - n } ∧
    ∀ k, k ≠ pid → dictGet (update_product inv pid n).2 k = dictGet inv k := by
  have hnot : ¬ n > p.quantity := not_lt.mpr hle
  have hupd : update_product inv pid n =
      (true, dictSet inv pid { p with quantity := p.quantity - n }) := by
    simp [update_product, hget, update_quantity, hnot]
  rw [hupd]
  exact ⟨rfl, dictGet_dictSet_self inv pid _ p hget,
    fun k hk => dictGet_dictSet_ne inv pid k _ hk⟩

/-- Witness for C2 at a concrete catalog: deducting 4 of the 5 gadgets
succeeds, leaves 1, and leaves the other product alone. -/
theorem update_product_success_deducts_witness :
    (update_product wCatalog "P2" 4).1 = true ∧
    dictGet (update_product wCatalog "P2" 4).2 "P2" =
      some { gadget5 with quantity := gadget5.quantity - 4 } ∧
    ∀ k, k ≠ "P2" → dictGet (update_product wCatalog "P2" 4).2 k = dictGet wCatalog k :=
  update_product_success_deducts wCatalog "P2" 4 gadget5 (by decide) (by decide)

/-- Claim C3: when the id is not a key of the catalog, or the requested amount
exceeds the current quantity, update_product returns the failure value False
and the entire catalog is unchanged. -/
theorem update_product_failure_no_change (inv : Inventory) (pid : String) (n : ℤ)
    (h : dictGet inv pid = none ∨ ∃ p, dictGet inv pid = some p ∧ p.quantity < n) :
    update_product inv pid n = (false, inv) := by
  unfold update_product
  cases hg : dictGet inv pid with
  | none => rfl
  | some p =>
      have hlt : p.quantity < n := by
        rcases h with hnone | ⟨q, hq, hlt⟩
        · rw [hg] at hnone; cases hnone
        · rw [hg] at hq; cases hq; exact hlt
      simp [update_quantity, hlt]

/-- Witness for C3, both failure modes at a concrete catalog: an unknown id and
an excessive amount each return False and leave the catalog untouched. -/
theorem update_product_failure_no_change_witness :
    update_product wCatalog "P9" 1 = (false, wCatalog) ∧
    update_product wCatalog "P2" 999 = (false, wCatalog) :=
  ⟨update_product_failure_no_change wCatalog "P9" 1 (Or.inl (by decide)),
   update_product_failure_no_change wCatalog "P2" 999
     (Or.inr ⟨gadget5, by decide, by decide⟩)⟩

/-- Claim C6: record_sale appends the sale to the ledger unconditionally: the
new ledger is the old one with the sale at the end whatever the outcome of the
per-line-item deductions, and the resulting catalog is exactly the left-to-right
best-effort application of those deductions, with no rollback step. -/
theorem record_sale_always_appends (inv : Inventory) (sales : List Sale) (sale : Sale) :
    (record_sale inv sales sale).2 = sales ++ [sale] ∧
    (record_sale inv sales sale).1 =
      sale.products_sold.foldl
        (fun acc pq => (update_product acc pq.1.product_id pq.2).2) inv :=
  ⟨rfl, rfl⟩

/-- Claim C7: processing sale S2 for 999 units of P1 when only 6 are in stock
skips the item, records a sale with zero line items, leaves the quantity at 6,
and adds no row to the sales report. -/
theorem process_sale_insufficient_skips (sales : List Sale) :
    (process_sale catalog6 sales "S2" [("P1", 999)]).1 = catalog6 ∧
    (process_sale catalog6 sales "S2" [("P1", 999)]).2 =
      sales ++ [{ sale_id := "S2", products_sold := [] }] ∧
    view_sales_report (process_sale catalog6 sales "S2" [("P1", 999)]).2 =
      view_sales_report sales := by
  have h2 : (process_sale catalog6 sales "S2" [("P1", 999)]).2 =
      sales ++ [{ sale_id := "S2", products_sold := [] }] := by
    simp [process_sale, processItem, record_sale, update_product, update_quantity,
      dictGet, catalog6, widget6]
  refine ⟨?_, h2, ?_⟩
  · simp [process_sale, processItem, record_sale, update_product, update_quantity,
      dictGet, catalog6, widget6]
  · rw [h2, view_sales_report_append]
    simp [view_sales_report, Sale.to_dict]

/-- Claim C1, actual outcome: selling 4 Widgets from a stock of 10 produces
exactly the claimed report row (sale S1, product P1, Widget, 4 sold, total 10),
but leaves the stock at 2, not 6: the deduction is applied once while the sale
is assembled in process_sale and a second time by record_sale. -/
theorem process_sale_s1_double_deduction :
    dictGet (process_sale catalog10 [] "S1" [("P1", 4)]).1 "P1" =
      some { product_id := "P1", name := "Widget", price := 5/2, quantity := 2 } ∧
    view_sales_report (process_sale catalog10 [] "S1" [("P1", 4)]).2 =
      [{ sale_id := "S1", product_id := "P1", product_name := "Widget",
         quantity_sold := 4, total_price := 10 }] := by
  constructor
  · simp [catalog10, widget10, process_sale, processItem, record_sale, update_product,
      update_quantity, dictGet, dictSet, Sale.add_product]
  · simp [catalog10, widget10, process_sale, processItem, record_sale, update_product,
      update_quantity, dictGet, dictSet, view_sales_report, Sale.to_dict, Sale.add_product]
    all_goals norm_num

/-- Claim C9: reloading the sales file re-joins every stored row against the
current catalog; a row whose product id is absent contributes no line item and
hence no report row, and a row whose product id is present is reconstructed
with its stored quantity_sold (reconRow makes the drop-or-rebuild explicit). -/
theorem sales_load_drops_missing_products (inv : Inventory) (rows : List SalesRow) :
    view_sales_report (sales_load inv rows) = rows.filterMap (reconRow inv) ∧
    (∀ row : SalesRow, dictGet inv row.product_id = none → reconRow inv row = none) ∧
    (∀ row : SalesRow, ∀ p : Product, dictGet inv row.product_id = some p →
      reconRow inv row =
        some ⟨row.sale_id, p.product_id, p.name, row.quantity_sold,
              p.price * (row.quantity_sold : ℚ)⟩) := by
  refine ⟨sales_report_load inv rows, ?_, ?_⟩
  · intro row hg
    simp [reconRow, hg]
  · intro row p hg
    simp [reconRow, hg]

/-- Witness for C9: against wCatalog, the row for the vanished product GONE is
dropped and the row for the surviving product P2 is rebuilt. -/
theorem sales_load_drops_missing_products_witness :
    view_sales_report (sales_load wCatalog wRows) = wRows.filterMap (reconRow wCatalog) ∧
    reconRow wCatalog ⟨"S1", "GONE", "Ghost", 1, 1⟩ = none ∧
    reconRow wCatalog ⟨"S1", "P2", "Gadget", 2, 6⟩ =
      some ⟨"S1", gadget5.product_id, gadget5.name, 2,
            gadget5.price * (((2 : ℤ) : ℚ))⟩ :=
  ⟨(sales_load_drops_missing_products wCatalog wRows).1,
   (sales_load_drops_missing_products wCatalog wRows).2.1 _ (by decide),
   (sales_load_drops_missing_products wCatalog wRows).2.2 _ gadget5 (by decide)⟩

/-- Claim C10: reloading creates one fresh Sale per stored row, so every
reloaded sale has at most one line item; a sale saved with k line items comes
back as k separate sales that all carry its sale id. -/
theorem sales_load_one_sale_per_row (inv : Inventory) (rows : List SalesRow) :
    (sales_load inv rows).length = rows.length ∧
    (∀ s ∈ sales_load inv rows, s.products_sold.length ≤ 1) ∧
    (sales_load inv rows).map Sale.sale_id = rows.map SalesRow.sale_id ∧
    (∀ sale : Sale,
      (sales_load inv (sales_save [sale])).length = sale.products_sold.length ∧
      ∀ t ∈ sales_load inv (sales_save [sale]), t.sale_id = sale.sale_id) := by
  have hlen : ∀ rs : List SalesRow, (sales_load inv rs).length = rs.length := by
    intro rs
    simp [sales_load]
  have hone : ∀ rs : List SalesRow, ∀ s ∈ sales_load inv rs,
      s.products_sold.length ≤ 1 := by
    intro rs s hs
    simp only [sales_load, List.mem_map] at hs
    obtain ⟨row, _, hfs⟩ := hs
    rw [← hfs]
    cases hg : dictGet inv row.product_id <;> simp [hg]
  have hid : ∀ rs : List SalesRow,
      (sales_load inv rs).map Sale.sale_id = rs.map SalesRow.sale_id := by
    intro rs
    induction rs with
    | nil => rfl
    | cons row rest ih =>
        have hcons : sales_load inv (row :: rest) =
            (match dictGet inv row.product_id with
              | some p =>
                  ({ sale_id := row.sale_id,
                     products_sold := [(p, row.quantity_sold)] } : Sale)
              | none => { sale_id := row.sale_id, products_sold := [] })
              :: sales_load inv rest := rfl
        rw [hcons, List.map_cons, List.map_cons, ih]
        cases hg : dictGet inv row.product_id <;> simp [hg]
  have hsave : ∀ sale : Sale, sales_save [sale] = sale.to_dict := by
    intro sale
    simp [sales_save]
  refine ⟨hlen rows, hone rows, hid rows, ?_⟩
  intro sale
  constructor
  · rw [hsave, hlen, Sale.to_dict, List.length_map]
  · intro t ht
    rw [hsave] at ht
    simp only [sales_load, List.mem_map] at ht
    obtain ⟨row, hrow, hft⟩ := ht
    have hrid : row.sale_id = sale.sale_id := by
      simp only [Sale.to_dict, List.mem_map] at hrow
      obtain ⟨pq, _, hpr⟩ := hrow
      rw [← hpr]
    rw [← hft]
    cases hg : dictGet inv row.product_id <;> simp [hg, hrid]

/-- Witness for C10: the two wRows reload as two one-or-zero-item sales with
matching sale ids, and the two-item wSale saved then reloaded becomes two
sales both named S9. -/
theorem sales_load_one_sale_per_row_witness :
    (sales_load wCatalog wRows).length = wRows.length ∧
    ({ sale_id := "S1", products_sold := [(gadget5, 2)] } : Sale).products_sold.length ≤ 1 ∧
    (sales_load wCatalog wRows).map Sale.sale_id = wRows.map SalesRow.sale_id ∧
    (sales_load wCatalog (sales_save [wSale])).length = wSale.products_sold.length ∧
    ({ sale_id := "S9", products_sold := [(gadget5, 1)] } : Sale).sale_id = wSale.sale_id :=
  ⟨(sales_load_one_sale_per_row wCatalog wRows).1,
   (sales_load_one_sale_per_row wCatalog wRows).2.1 _ (by decide),
   (sales_load_one_sale_per_row wCatalog wRows).2.2.1,
   ((sales_load_one_sale_per_row wCatalog wRows).2.2.2 wSale).1,
   ((sales_load_one_sale_per_row wCatalog wRows).2.2.2 wSale).2 _ (by decide)⟩

/-- Writing a fresh key appends the binding at the end of the dict. -/
theorem dictSet_append_of_not_mem (acc : Inventory) (p : Product)
    (h : p.product_id ∉ acc.map Prod.fst) :
    dictSet acc p.product_id p = acc ++ [(p.product_id, p)] := by
  induction acc with
  | nil => rfl
  | cons kp rest ih =>
      obtain ⟨k, v⟩ := kp
      simp only [List.map_cons, List.mem_cons, not_or] at h
      have hk : ¬ k = p.product_id := fun hh => h.1 hh.symm
      simp [dictSet, hk, ih h.2]

/-- Folding dict writes of products with pairwise distinct fresh ids appends
their bindings in order. -/
theorem foldl_dictSet_eq_append (rows : List Product) : ∀ acc : Inventory,
    (∀ r ∈ rows, r.product_id ∉ acc.map Prod.fst) →
    (rows.map Product.product_id).Nodup →
    rows.foldl (fun a p => dictSet a p.product_id p) acc =
      acc ++ rows.map (fun p => (p.product_id, p)) := by
  induction rows with
  | nil =>
      intro acc _ _
      simp
  | cons r rest ih =>
      intro acc hmem hnodup
      simp only [List.map_cons, List.nodup_cons] at hnodup
      simp only [List.foldl_cons]
      rw [dictSet_append_of_not_mem acc r (hmem r (List.mem_cons_self r rest))]
      rw [ih (acc ++ [(r.product_id, r)]) ?fresh hnodup.2]
      · simp
      case fresh =>
        intro x hx
        simp only [List.map_append, List.mem_append, List.map_cons, List.map_nil,
          List.mem_cons, List.not_mem_nil, not_or]
        refine ⟨hmem x (List.mem_cons_of_mem r hx), ?_, fun hf => hf⟩
        intro heq
        exact hnodup.1 (heq ▸ List.mem_map_of_mem Product.product_id hx)

/-- Saving then loading rebuilds the very same association list, for any
inventory whose keys are distinct and key each product under its own id. -/
theorem inventory_load_save_eq (inv : Inventory)
    (hnodup : keysNodup inv) (hcons : keyConsistent inv) :
    inventory_load (inventory_save inv) = inv := by
  have hids : (inventory_save inv).map Product.product_id = inv.map Prod.fst := by
    unfold inventory_save
    rw [List.map_map]
    exact List.map_congr_left fun kp hkp => (hcons kp hkp).symm
  unfold inventory_load
  rw [foldl_dictSet_eq_append (inventory_save inv) [] (by simp) (by rw [hids]; exact hnodup)]
  unfold inventory_save
  rw [List.nil_append, List.map_map]
  calc inv.map (fun kp => ((kp.2.product_id, kp.2) : String × Product))
      = inv.map (fun kp => (kp.1, kp.2)) :=
        List.map_congr_left fun kp hkp => by rw [← hcons kp hkp]
    _ = inv := by simp

/-- Claim C4: for every non-empty well-formed catalog (distinct keys, each
product keyed under its own id, non-negative prices and quantities), saving and
reloading reproduces the identical association list, hence the identical
mapping from product id to name, price and quantity. -/
theorem inventory_roundtrip (inv : Inventory)
    (_hne : inv ≠ [])
    (hnodup : keysNodup inv) (hcons : keyConsistent inv)
    (_hprice : ∀ kp ∈ inv, 0 ≤ kp.2.price)
    (_hq : ∀ kp ∈ inv, 0 ≤ kp.2.quantity) :
    inventory_load (inventory_save inv) = inv ∧
    ∀ pid, dictGet (inventory_load (inventory_save inv)) pid = dictGet inv pid := by
  have h := inventory_load_save_eq inv hnodup hcons
  exact ⟨h, fun pid => by rw [h]⟩

/-- Witness for C4 at the concrete two-product catalog. -/
theorem inventory_roundtrip_witness :
    inventory_load (inventory_save wCatalog) = wCatalog ∧
    ∀ pid, dictGet (inventory_load (inventory_save wCatalog)) pid = dictGet wCatalog pid :=
  inventory_roundtrip wCatalog (by decide) (by decide) (by decide)
    (by decide) (by decide)

/-- dictSet preserves non-negativity of all stocks when the written product has
non-negative stock. -/
theorem invNonNeg_dictSet (pid : String) (v : Product) (hv : 0 ≤ v.quantity) :
    ∀ inv : Inventory, InvNonNeg inv → InvNonNeg (dictSet inv pid v) := by
  intro inv
  induction inv with
  | nil =>
      intro _ kp hkp
      simp [dictSet] at hkp
      rw [hkp]
      exact hv
  | cons kp0 rest ih =>
      intro hinv kp hkp
      obtain ⟨k, v0⟩ := kp0
      by_cases hk : k = pid
      · simp [dictSet, hk] at hkp
        rcases hkp with hkp | hkp
        · rw [hkp]
          exact hv
        · exact hinv kp (List.mem_cons_of_mem _ hkp)
      · simp [dictSet, hk] at hkp
        rcases hkp with hkp | hkp
        · exact hinv kp (by simp [hkp])
        · exact ih (fun x hx => hinv x (List.mem_cons_of_mem _ hx)) kp hkp

/-- update_product preserves non-negativity of all stocks, for every requested
amount: a failing request changes nothing and a succeeding one has its amount
bounded by the stock it decrements. -/
theorem invNonNeg_update_product (inv : Inventory) (pid : String) (n : ℤ)
    (hinv : InvNonNeg inv) : InvNonNeg (update_product inv pid n).2 := by
  unfold update_product
  cases hg : dictGet inv pid with
  | none => exact hinv
  | some p =>
      by_cases hgt : n > p.quantity
      · simp [update_quantity, hgt]
        exact hinv
      · simp [update_quantity, hgt]
        exact invNonNeg_dictSet pid _ (sub_nonneg.mpr (not_lt.mp hgt)) inv hinv

/-- processItem preserves non-negativity of the catalog component. -/
theorem invNonNeg_processItem (inv : Inventory) (sale : Sale) (pid : String) (q : ℤ)
    (hinv : InvNonNeg inv) : InvNonNeg (processItem inv sale pid q).1 := by
  have hupd := invNonNeg_update_product inv pid q hinv
  unfold processItem
  cases dictGet inv pid with
  | none => exact hinv
  | some p =>
      by_cases hr : (update_product inv pid q).1
      · simp only [hr, if_true]
        cases dictGet (update_product inv pid q).2 pid <;> exact hupd
      · simp only [hr, if_false]
        exact hupd

/-- Claim C8: quantity non-negativity is an invariant: starting from a catalog
whose stocks are all non-negative, adding a product with non-negative stock,
deducting (any amount, succeeding or not), recording a sale, processing a sale
and loading a file of non-negative rows all yield catalogs whose stocks are all
non-negative (viewing, reporting and saving do not change the catalog at all). -/
theorem quantity_nonneg_invariant :
    (∀ (inv : Inventory) (p : Product), InvNonNeg inv → 0 ≤ p.quantity →
      InvNonNeg (add_product inv p)) ∧
    (∀ (inv : Inventory) (pid : String) (n : ℤ), InvNonNeg inv →
      InvNonNeg (update_product inv pid n).2) ∧
    (∀ (inv : Inventory) (sales : List Sale) (sale : Sale), InvNonNeg inv →
      InvNonNeg (record_sale inv sales sale).1) ∧
    (∀ (inv : Inventory) (sales : List Sale) (sid : String) (items : List (String × ℤ)),
      InvNonNeg inv → InvNonNeg (process_sale inv sales sid items).1) ∧
    (∀ rows : List Product, (∀ r ∈ rows, 0 ≤ r.quantity) →
      InvNonNeg (inventory_load rows)) := by
  have hfold : ∀ (l : List (Product × ℤ)) (a : Inventory), InvNonNeg a →
      InvNonNeg (l.foldl (fun acc pq => (update_product acc pq.1.product_id pq.2).2) a) := by
    intro l
    induction l with
    | nil => intro a ha; exact ha
    | cons pq rest ih =>
        intro a ha
        exact ih _ (invNonNeg_update_product a pq.1.product_id pq.2 ha)
  refine ⟨?_, ?_, ?_, ?_, ?_⟩
  · intro inv p hinv hp
    exact invNonNeg_dictSet p.product_id p hp inv hinv
  · intro inv pid n hinv
    exact invNonNeg_update_product inv pid n hinv
  · intro inv sales sale hinv
    exact hfold sale.products_sold inv hinv
  · intro inv sales sid items hinv
    unfold process_sale record_sale
    apply hfold
    have hst : ∀ (l : List (String × ℤ)) (st : Inventory × Sale), InvNonNeg st.1 →
        InvNonNeg (l.foldl (fun st it => processItem st.1 st.2 it.1 it.2) st).1 := by
      intro l
      induction l with
      | nil => intro st h; exact h
      | cons it rest ih =>
          intro st h
          exact ih _ (invNonNeg_processItem st.1 st.2 it.1 it.2 h)
    exact hst items (inv, Sale.mk sid []) hinv
  · intro rows hrows
    unfold inventory_load
    suffices h2 : ∀ (rs : List Product) (acc : Inventory), (∀ r ∈ rs, 0 ≤ r.quantity) →
        InvNonNeg acc →
        InvNonNeg (rs.foldl (fun a p => dictSet a p.product_id p) acc) by
      refine h2 rows [] hrows ?_
      intro kp hkp
      simp at hkp
    intro rs
    induction rs with
    | nil => intro acc _ ha; exact ha
    | cons r rest ih =>
        intro acc hr ha
        exact ih _ (fun x hx => hr x (List.mem_cons_of_mem _ hx))
          (invNonNeg_dictSet r.product_id r (hr r (List.mem_cons_self _ _)) acc ha)

/-- Witness for C8: every conjunct of the invariant applied at concrete
non-negative states. -/
theorem quantity_nonneg_invariant_witness :
    InvNonNeg (add_product wCatalog widget10) ∧
    InvNonNeg (update_product wCatalog "P2" 4).2 ∧
    InvNonNeg (record_sale wCatalog [] wSale).1 ∧
    InvNonNeg (process_sale wCatalog [] "S1" [("P2", 2)]).1 ∧
    InvNonNeg (inventory_load [gadget5]) :=
  ⟨quantity_nonneg_invariant.1 wCatalog widget10 (by decide) (by decide),
   quantity_nonneg_invariant.2.1 wCatalog "P2" 4 (by decide),
   quantity_nonneg_invariant.2.2.1 wCatalog [] wSale (by decide),
   quantity_nonneg_invariant.2.2.2.1 wCatalog [] "S1" [("P2", 2)] (by decide),
   quantity_nonneg_invariant.2.2.2.2 [gadget5] (by decide)⟩

/-- Agreement of a catalog product with a recorded line-item snapshot on the
fields that saving and reporting read: id, name and price.  In Python the line
item holds a reference to the catalog object itself, and recording mutates only
its quantity, so this holds of every recorded ledger against the catalog state
in effect when (or after) its sales were recorded. -/
def resolvesTo (inv : Inventory) (q : Product) : Prop :=
  ∃ p : Product, dictGet inv q.product_id = some p ∧
    p.product_id = q.product_id ∧ p.name = q.name ∧ p.price = q.price

/-- For one sale all of whose line items resolve, by the product id they hold,
to a catalog product with the same id, name and price, re-joining its flattened
rows rebuilds exactly those rows. -/
theorem filterMap_reconRow_to_dict (inv : Inventory) (sid : String) :
    ∀ items : List (Product × ℤ),
    (∀ pq ∈ items, resolvesTo inv pq.1) →
    (Sale.mk sid items).to_dict.filterMap (reconRow inv) = (Sale.mk sid items).to_dict := by
  intro items
  induction items with
  | nil => intro _; rfl
  | cons pq rest ih =>
      intro h
      have hcons : (Sale.mk sid (pq :: rest)).to_dict =
          (⟨sid, pq.1.product_id, pq.1.name, pq.2, pq.1.price * (pq.2 : ℚ)⟩ : SalesRow)
          :: (Sale.mk sid rest).to_dict := rfl
      obtain ⟨p, hget, hid, hname, hprice⟩ := h pq (List.mem_cons_self _ _)
      have hrec : reconRow inv
          (⟨sid, pq.1.product_id, pq.1.name, pq.2, pq.1.price * (pq.2 : ℚ)⟩ : SalesRow) =
          some (⟨sid, pq.1.product_id, pq.1.name, pq.2, pq.1.price * (pq.2 : ℚ)⟩ : SalesRow) := by
        simp [reconRow, hget, hid, hname, hprice]
      rw [hcons, List.filterMap_cons, hrec, ih (fun x hx => h x (List.mem_cons_of_mem _ hx))]

/-- Claim C5: for every ledger whose recorded line items all still resolve, by
the product id they hold, to a catalog product carrying that id, name and price
(which is automatic in Python for the catalog state in effect when the sales
were recorded: the line item aliases the catalog object and only its quantity
is ever mutated), saving the ledger and loading it back against that catalog
state reports exactly the original flattened rows, in order. -/
theorem sales_roundtrip (inv : Inventory) (sales : List Sale)
    (haligned : ∀ s ∈ sales, ∀ pq ∈ s.products_sold, resolvesTo inv pq.1) :
    view_sales_report (sales_load inv (sales_save sales)) = view_sales_report sales := by
  rw [sales_report_load]
  induction sales with
  | nil => rfl
  | cons s rest ih =>
      have hsave : sales_save (s :: rest) = s.to_dict ++ sales_save rest := rfl
      rw [hsave, List.filterMap_append, view_sales_report_cons,
        ih (fun t ht => haligned t (List.mem_cons_of_mem _ ht))]
      have hs := haligned s (List.mem_cons_self _ _)
      have hto : s.to_dict.filterMap (reconRow inv) = s.to_dict :=
        filterMap_reconRow_to_dict inv s.sale_id s.products_sold hs
      rw [hto]

/-- The catalog and ledger genuinely produced by selling 4 Widgets out of 10. -/
def wState : Inventory × List Sale := process_sale catalog10 [] "S1" [("P1", 4)]

/-- What wState evaluates to: the sale snapshot holds the Widget at quantity 6
(its stock after the assembly-time deduction) while the catalog holds it at
quantity 2 (after record_sale deducts again), so the snapshot and the catalog
product agree on id, name and price but not on quantity. -/
theorem wState_eq :
    wState = ([("P1", { product_id := "P1", name := "Widget", price := 5/2, quantity := 2 })],
              [{ sale_id := "S1", products_sold := [(widget6, 4)] }]) := by
  simp [wState, process_sale, processItem, record_sale, update_product, update_quantity,
    dictGet, dictSet, catalog10, widget10, widget6, Sale.add_product]

/-- Witness for C5 at a recorded state: the ledger produced by process_sale,
saved and reloaded against the catalog state it left behind, reports the same
rows. -/
theorem sales_roundtrip_witness :
    view_sales_report (sales_load wState.1 (sales_save wState.2)) =
      view_sales_report wState.2 :=
  sales_roundtrip wState.1 wState.2 (by
    intro s hs pq hpq
    rw [wState_eq] at hs
    simp at hs
    rw [hs] at hpq
    simp at hpq
    rw [hpq]
    refine ⟨{ product_id := "P1", name := "Widget", price := 5/2, quantity := 2 },
      ?_, rfl, rfl, rfl⟩
    rw [wState_eq]
    simp [dictGet, widget6])

end Shop
